/-
Verification development for the rdcworm multiplayer worm-game server.

The definitions below are a shallow embedding of the server core:
  - shared/engine/math.ts      (wrapDelta, torusDistSq)
  - server/src/game-engine.ts  (wrap, dist2, constants, calculateBodyLength,
                                calculateThickness, calculateFoodBurst)
  - server/src/index.ts        (SpatialGrid, stepRoom and its passes,
                                createFoodBurstInRoom, cleanupDistantFood,
                                the tournament round-expiry check and the
                                respawn message handler)

JavaScript numbers are modelled as rationals (every computation the theorems
below touch is exact in double precision as well).  `Math.cos`, `Math.sin`
and `Math.random` are modelled as oracle functions passed in explicitly:
`cosf`/`sinf : ℚ → ℚ` and an infinite stream `r : ℕ → ℚ` consumed at an
index that is threaded through the step in source order.  `Math.PI` is the
exact rational value of the IEEE-754 double.
-/
import Mathlib

namespace RdcWorm

/-- 2D point or delta, `{x, y}` in the source. -/
structure Vec where
  x : ℚ
  y : ℚ
deriving DecidableEq, Repr

/-- Per-room world dimensions (wrap moduli). -/
structure World where
  width : ℚ
  height : ℚ
deriving DecidableEq, Repr

/-! ## Toroidal math (shared/engine/math.ts) -/

/-- `wrapDelta(d, size)` from shared/engine/math.ts: one-step shortest signed
delta on a cyclic axis of length `size`. -/
def wrapDelta (d size : ℚ) : ℚ :=
  if d > size / 2 then d - size
  else if d < -(size / 2) then d + size
  else d

/-- `torusDistSq(a, b, w)` from shared/engine/math.ts: squared toroidal
distance, `wrapDelta` per axis. -/
def torusDistSq (a b : Vec) (w : World) : ℚ :=
  let dx := wrapDelta (b.x - a.x) w.width
  let dy := wrapDelta (b.y - a.y) w.height
  dx * dx + dy * dy

/-! ## Pure physics helpers (server/src/game-engine.ts) -/

/-- `wrap(v, max)` from server/src/game-engine.ts: a single wrap-around step
(one conditional add or subtract, not a modulo). -/
def wrap (v vmax : ℚ) : ℚ :=
  if v < 0 then v + vmax
  else if v ≥ vmax then v - vmax
  else v

/-- `dist2(a, b)` from server/src/game-engine.ts: plain squared Euclidean
distance.  Note: no wrapping is applied. -/
def dist2 (a b : Vec) : ℚ :=
  let dx := a.x - b.x
  let dy := a.y - b.y
  dx * dx + dy * dy

def FOOD_R2 : ℚ := 18 * 18
def HEAD_R2 : ℚ := 14 * 14
def TURN_SPEED : ℚ := 0.12
def BASE_SPEED : ℚ := 4.0
def BOOST_MULTIPLIER : ℚ := 1.8
def BOOST_COST_PER_TICK : ℚ := 0.5

/-- `calculateBodyLength(score)` from game-engine.ts:
`min(max(15, floor(score * 0.8)), 300)`. -/
def calculateBodyLength (score : ℚ) : ℤ :=
  let targetLen : ℤ := max 15 ⌊score * 0.8⌋
  let maxLen : ℤ := 300
  min targetLen maxLen

/-- `calculateThickness(score)` from game-engine.ts. -/
def calculateThickness (score : ℚ) : ℚ :=
  let targetLen : ℤ := max 15 ⌊score * 0.8⌋
  let maxLen : ℤ := 300
  let baseThickness : ℚ := 14
  let maxThickness : ℚ := 28
  if targetLen ≥ maxLen then
    let excessScore := score - (maxLen : ℚ) / 0.8
    let thicknessBonus := min (excessScore * 0.1) (maxThickness - baseThickness)
    baseThickness + max 0 thicknessBonus
  else baseThickness

/-- `calculateFoodBurst(bodyLength, score)` from game-engine.ts. -/
def calculateFoodBurst (bodyLength : ℕ) (score : ℚ) : ℕ × ℤ :=
  let bodySegments := min bodyLength 150
  let segmentFood := bodySegments / 3
  let bonusFood := min ⌊score / 8⌋ 25
  (segmentFood, bonusFood)

/-- Exact rational value of the IEEE-754 double `Math.PI`. -/
def jsPI : ℚ := 884279719003555 / 281474976710656

/-! ## Entity model (server/src/index.ts) -/

/-- `PlayerState` from server/src/index.ts. -/
structure PlayerState where
  id : String
  name : String
  color : String
  avatar : Option String
  pos : Vec
  angle : ℚ
  speed : ℚ
  body : List Vec
  score : ℚ
  alive : Bool
  turn : ℤ
  boosting : Bool
  thickness : ℚ
deriving DecidableEq, Repr

inductive FoodType
  | bug
  | jira
  | zillow
deriving DecidableEq, Repr

/-- Point values from the `FOOD_TYPES` table in index.ts. -/
def FoodType.points : FoodType → ℚ
  | .bug => 5
  | .jira => 10
  | .zillow => 30

/-- `FoodItem` from the client protocol: a bonus food with kind and value. -/
structure FoodItem where
  x : ℚ
  y : ℚ
  type : FoodType
  value : ℚ
deriving DecidableEq, Repr

/-- `room.gameState` from index.ts: the mutable per-room simulation state.
The `activePlayers` map is modelled as a list in insertion (iteration)
order; ids are unique. -/
structure GameState where
  activePlayers : List PlayerState
  foods : List Vec
  bonusFood : List FoodItem
deriving DecidableEq, Repr

/-- `generateBonusFoodForRoom(world)` from index.ts; `r0` is the kind roll,
`r1, r2` the position rolls, in the source's draw order. -/
def generateBonusFoodForRoom (world : World) (r0 r1 r2 : ℚ) : FoodItem :=
  let type : FoodType := if r0 < 0.05 then .zillow else if r0 < 0.30 then .jira else .bug
  { x := r1 * world.width, y := r2 * world.height, type := type, value := type.points }

/-! ## Simulation step, pass 1: steering, boosting, movement, growth
(the first loop of `stepRoom` in index.ts) -/

/-- Speed resolved by the boost branch of the movement loop. -/
def boostedSpeed (p : PlayerState) : ℚ :=
  if p.boosting = true ∧ p.score > 10 then BASE_SPEED * BOOST_MULTIPLIER else BASE_SPEED

/-- Score after the boost drain of the movement loop (clamped at 10). -/
def boostedScore (p : PlayerState) : ℚ :=
  if p.boosting = true ∧ p.score > 10 then
    let s := p.score - BOOST_COST_PER_TICK
    if s ≤ 10 then 10 else s
  else p.score

/-- Boost flag after the movement loop (auto-cleared at the floor). -/
def boostedFlag (p : PlayerState) : Bool :=
  if p.boosting = true ∧ p.score > 10 then
    decide (¬ (p.score - BOOST_COST_PER_TICK ≤ 10))
  else false

/-- One player's steering + boosting + movement + growth + thickness update,
exactly the body of the first `for` loop of `stepRoom`.  Dead players are
left untouched (`continue`). -/
def movePlayer (cosf sinf : ℚ → ℚ) (world : World) (p : PlayerState) : PlayerState :=
  if p.alive = false then p
  else
    let angle := p.angle + (p.turn : ℚ) * TURN_SPEED
    let speed := boostedSpeed p
    let score := boostedScore p
    let boosting := boostedFlag p
    let pos : Vec := { x := wrap (p.pos.x + cosf angle * speed) world.width,
                       y := wrap (p.pos.y + sinf angle * speed) world.height }
    let body0 := pos :: p.body
    let finalLen := calculateBodyLength score
    let body := if (body0.length : ℤ) > finalLen then body0.take finalLen.toNat else body0
    { p with angle := angle, speed := speed, score := score, boosting := boosting,
             pos := pos, body := body, thickness := calculateThickness score }

/-! ## Simulation step, pass 2 and 3: food consumption
(the `eat food` and `eat bonus food` loops of `stepRoom`) -/

/-- The inner player scan of the food loops: award `value` to the first
living player whose head is within `FOOD_R2` of `f` (`break` on the first
match); `none` when nobody eats. -/
def awardFirstEater (f : Vec) (value : ℚ) : List PlayerState → Option (List PlayerState)
  | [] => none
  | p :: ps =>
    if p.alive = true ∧ dist2 p.pos f ≤ FOOD_R2 then
      some ({ p with score := p.score + value } :: ps)
    else
      match awardFirstEater f value ps with
      | some ps' => some (p :: ps')
      | none => none

/-- The plain-food loop of `stepRoom`: indices walked from `foods.length - 1`
down to `0`; an eaten food is spliced out and a fresh random food is pushed
(draws: x then y).  The argument `i` is the number of indices still to
visit. -/
def eatFoodsAux (world : World) (r : ℕ → ℚ) :
    ℕ → List PlayerState → List Vec → ℕ → List PlayerState × List Vec × ℕ
  | 0, ps, fs, n => (ps, fs, n)
  | i + 1, ps, fs, n =>
    match fs[i]? with
    | none => eatFoodsAux world r i ps fs n
    | some f =>
      match awardFirstEater f 1 ps with
      | some ps' =>
        eatFoodsAux world r i ps'
          (fs.eraseIdx i ++ [{ x := r n * world.width, y := r (n + 1) * world.height }]) (n + 2)
      | none => eatFoodsAux world r i ps fs n

def eatFoods (world : World) (r : ℕ → ℚ) (ps : List PlayerState) (fs : List Vec) (n : ℕ) :
    List PlayerState × List Vec × ℕ :=
  eatFoodsAux world r fs.length ps fs n

/-- The bonus-food loop of `stepRoom`: same shape, awards the food's value
and respawns via `generateBonusFoodForRoom` (draws: kind, x, y). -/
def eatBonusAux (world : World) (r : ℕ → ℚ) :
    ℕ → List PlayerState → List FoodItem → ℕ → List PlayerState × List FoodItem × ℕ
  | 0, ps, bs, n => (ps, bs, n)
  | i + 1, ps, bs, n =>
    match bs[i]? with
    | none => eatBonusAux world r i ps bs n
    | some f =>
      match awardFirstEater { x := f.x, y := f.y } f.value ps with
      | some ps' =>
        eatBonusAux world r i ps'
          (bs.eraseIdx i ++ [generateBonusFoodForRoom world (r n) (r (n + 1)) (r (n + 2))]) (n + 3)
      | none => eatBonusAux world r i ps bs n

def eatBonus (world : World) (r : ℕ → ℚ) (ps : List PlayerState) (bs : List FoodItem) (n : ℕ) :
    List PlayerState × List FoodItem × ℕ :=
  eatBonusAux world r bs.length ps bs n

/-! ## Food burst on death (`createFoodBurstInRoom` in index.ts) -/

/-- Segment-food loop of `createFoodBurstInRoom`: for `i` below
`segmentFood`, scatter a food around body segment `3 * i` with two jitter
draws.  `i` is the loop counter, `k` the remaining iterations. -/
def burstSegAux (body : List Vec) (world : World) (r : ℕ → ℚ) :
    ℕ → ℕ → ℕ → List Vec × ℕ
  | _, 0, n => ([], n)
  | i, k + 1, n =>
    if 3 * i < body.length then
      match body[3 * i]? with
      | some seg =>
        let fx := wrap (seg.x + (r n - 0.5) * 40) world.width
        let fy := wrap (seg.y + (r (n + 1) - 0.5) * 40) world.height
        let (rest, n') := burstSegAux body world r (i + 1) k (n + 2)
        ({ x := fx, y := fy } :: rest, n')
      | none => burstSegAux body world r (i + 1) k n
    else burstSegAux body world r (i + 1) k n

/-- Bonus-circle loop of `createFoodBurstInRoom`: `cnt` points on a circle of
radius `60 + rand * 40` around the death position. -/
def burstBonusAux (pos : Vec) (cnt : ℕ) (cosf sinf : ℚ → ℚ) (world : World) (r : ℕ → ℚ) :
    ℕ → ℕ → ℕ → List Vec × ℕ
  | _, 0, n => ([], n)
  | i, k + 1, n =>
    let angle := jsPI * 2 * (i : ℚ) / (cnt : ℚ)
    let radius := 60 + r n * 40
    let fx := wrap (pos.x + cosf angle * radius) world.width
    let fy := wrap (pos.y + sinf angle * radius) world.height
    let (rest, n') := burstBonusAux pos cnt cosf sinf world r (i + 1) k (n + 1)
    ({ x := fx, y := fy } :: rest, n')

/-- `createFoodBurstInRoom(player, world)` from index.ts. -/
def createFoodBurstInRoom (cosf sinf : ℚ → ℚ) (p : PlayerState) (world : World)
    (r : ℕ → ℚ) (n : ℕ) : List Vec × ℕ :=
  let bodySegments := min p.body.length 150
  let segmentFood := bodySegments / 3
  let bonusFoodCount := (min ⌊p.score / 8⌋ 25).toNat
  let (segPart, n1) := burstSegAux p.body world r 0 segmentFood n
  let (bonusPart, n2) := burstBonusAux p.pos bonusFoodCount cosf sinf world r 0 bonusFoodCount n1
  (segPart ++ bonusPart, n2)

/-! ## Spatial grid (class `SpatialGrid` in index.ts) -/

structure GridEntry where
  segment : Vec
  ownerId : String
  segmentIndex : ℕ
deriving DecidableEq, Repr

/-- `SpatialGrid`: buckets keyed by cell coordinates.  The JS `Map` keyed by
the string `cx + "," + cy` is modelled as a function from the (integer) cell
pair; each bucket keeps insertion order. -/
structure SpatialGrid where
  cellSize : ℚ
  cols : ℤ
  rows : ℤ
  buckets : ℤ × ℤ → List GridEntry

/-- The constructor: `cols = ceil(width / cellSize)`, likewise rows. -/
def SpatialGrid.create (worldWidth worldHeight cellSize : ℚ) : SpatialGrid :=
  { cellSize := cellSize, cols := ⌈worldWidth / cellSize⌉, rows := ⌈worldHeight / cellSize⌉,
    buckets := fun _ => [] }

/-- `cellKey(x, y)`: `floor(x / cellSize) % cols` with the JavaScript `%`
(remainder taking the dividend's sign), i.e. `Int.tmod`. -/
def SpatialGrid.cellKey (g : SpatialGrid) (x y : ℚ) : ℤ × ℤ :=
  (Int.tmod ⌊x / g.cellSize⌋ g.cols, Int.tmod ⌊y / g.cellSize⌋ g.rows)

/-- `insert(segment, ownerId, segmentIndex)`. -/
def SpatialGrid.insert (g : SpatialGrid) (segment : Vec) (ownerId : String)
    (segmentIndex : ℕ) : SpatialGrid :=
  { g with buckets := fun k =>
      if k = g.cellKey segment.x segment.y then
        g.buckets k ++ [{ segment := segment, ownerId := ownerId, segmentIndex := segmentIndex }]
      else g.buckets k }

/-- The 9 wrapped cell keys visited by `queryNearby(pos)`, in loop order
(`dx` outer, `dy` inner); each axis gets a `+ cols` bias before the JS `%`. -/
def SpatialGrid.queryKeys (g : SpatialGrid) (pos : Vec) : List (ℤ × ℤ) :=
  let cx := ⌊pos.x / g.cellSize⌋
  let cy := ⌊pos.y / g.cellSize⌋
  ([-1, 0, 1] : List ℤ).flatMap fun dx =>
    ([-1, 0, 1] : List ℤ).map fun dy =>
      (Int.tmod (cx + dx + g.cols) g.cols, Int.tmod (cy + dy + g.rows) g.rows)

/-- `queryNearby(pos)`: all segments in the 3×3 block of cells around
`pos`'s cell. -/
def SpatialGrid.queryNearby (g : SpatialGrid) (pos : Vec) : List GridEntry :=
  (g.queryKeys pos).flatMap g.buckets

/-- Insert one player's body segments with their indices (inner loop of the
grid-building phase of `stepRoom`). -/
def insertSegs (playerId : String) : SpatialGrid → ℕ → List Vec → SpatialGrid
  | g, _, [] => g
  | g, i, s :: ss => insertSegs playerId (g.insert s playerId i) (i + 1) ss

/-- Grid building in `stepRoom`: all living players' body segments. -/
def buildGrid (world : World) (ps : List PlayerState) : SpatialGrid :=
  ps.foldl (fun g p => if p.alive = true then insertSegs p.id g 0 p.body else g)
    (SpatialGrid.create world.width world.height 100)

/-! ## Simulation step, pass 5: head-to-body collisions -/

/-- Whether grid entry `e` kills the head of `p`: not within the own-body
hinge (`ownerId == p.id && segmentIndex < 6`) and within `HEAD_R2`. -/
def killsHead (p : PlayerState) (e : GridEntry) : Bool :=
  decide (¬ (e.ownerId = p.id ∧ e.segmentIndex < 6)) && decide (dist2 p.pos e.segment < HEAD_R2)

/-- The head-to-body pass of `stepRoom`.  Faithful to the source: on the
first death the loop over players is exited by `break` (`if (!p.alive)
break;` sits in the outer loop), so the remaining players are not checked
at all this tick.  Returns (players, foods, dead, rng index). -/
def bodyPass (cosf sinf : ℚ → ℚ) (world : World) (r : ℕ → ℚ) (grid : SpatialGrid) :
    List PlayerState → List Vec → ℕ → List PlayerState × List Vec × List String × ℕ
  | [], foods, n => ([], foods, [], n)
  | p :: ps, foods, n =>
    if p.alive = true ∧ (grid.queryNearby p.pos).any (killsHead p) then
      let (bf, n') := createFoodBurstInRoom cosf sinf p world r n
      ({ p with alive := false } :: ps, foods ++ bf, [p.id], n')
    else
      let (ps', foods', dead', n') := bodyPass cosf sinf world r grid ps foods n
      (p :: ps', foods', dead', n')

/-! ## Simulation step, pass 6: head-to-head collisions -/

/-- Mark the player with the given id dead (ids are unique). -/
def markDead (playerId : String) (ps : List PlayerState) : List PlayerState :=
  ps.map fun q => if q.id = playerId then { q with alive := false } else q

/-- Inner `j` loop of the head-to-head pass: `a` against each later player
in the `alivePlayers` snapshot.  Aliveness is never re-checked; both ids are
pushed and both bursts emitted for every fatal pair. -/
def h2hInner (cosf sinf : ℚ → ℚ) (world : World) (r : ℕ → ℚ) (a : PlayerState) :
    List PlayerState → List PlayerState × List Vec × List String × ℕ →
    List PlayerState × List Vec × List String × ℕ
  | [], st => st
  | b :: bs, (players, foods, dead, n) =>
    match decide (dist2 a.pos b.pos < HEAD_R2) with
    | true =>
      let players' := markDead b.id (markDead a.id players)
      let (fa, n1) := createFoodBurstInRoom cosf sinf a world r n
      let (fb, n2) := createFoodBurstInRoom cosf sinf b world r n1
      h2hInner cosf sinf world r a bs (players', foods ++ fa ++ fb, dead ++ [a.id, b.id], n2)
    | false => h2hInner cosf sinf world r a bs (players, foods, dead, n)

/-- Outer `i` loop of the head-to-head pass over the snapshot list. -/
def h2hOuter (cosf sinf : ℚ → ℚ) (world : World) (r : ℕ → ℚ) :
    List PlayerState → List PlayerState × List Vec × List String × ℕ →
    List PlayerState × List Vec × List String × ℕ
  | [], st => st
  | a :: rest, st => h2hOuter cosf sinf world r rest (h2hInner cosf sinf world r a rest st)

/-- The head-to-head pass of `stepRoom`: the `alivePlayers` snapshot is
filtered once, before the pairwise scan. -/
def h2hPass (cosf sinf : ℚ → ℚ) (world : World) (r : ℕ → ℚ)
    (players : List PlayerState) (foods : List Vec) (dead : List String) (n : ℕ) :
    List PlayerState × List Vec × List String × ℕ :=
  h2hOuter cosf sinf world r (players.filter fun p => p.alive) (players, foods, dead, n)

/-! ## The per-room tick (`stepRoom` in index.ts) -/

/-- `stepRoom(room)`: movement/growth, plain food, bonus food, grid build,
head-to-body pass, head-to-head pass.  (`cleanupDistantFood` is NOT part of
this function in the source; see its definition below.)  Returns the new
game state and the tick's `dead` id list. -/
def stepRoom (cosf sinf : ℚ → ℚ) (r : ℕ → ℚ) (world : World) (st : GameState) :
    GameState × List String :=
  let players1 := st.activePlayers.map (movePlayer cosf sinf world)
  let (players2, foods2, n2) := eatFoods world r players1 st.foods 0
  let (players3, bonus3, n3) := eatBonus world r players2 st.bonusFood n2
  let grid := buildGrid world players3
  let (players4, foods4, dead4, n4) := bodyPass cosf sinf world r grid players3 foods2 n3
  let (players5, foods5, dead5, _) := h2hPass cosf sinf world r players4 foods4 dead4 n4
  ({ activePlayers := players5, foods := foods5, bonusFood := bonus3 }, dead5)

/-! ## Food population maintenance (`cleanupDistantFood` in index.ts).
In the source this function reads the legacy global `foods`/`players`;
`stepRoom` does not call it (the call site is the comment
"// Clean up distant food if over cap ... For now, skip cleanup in stepRoom
to keep it simple"). -/

/-- `Math.min(...)` over the mapped distances; the alive-position list is
guaranteed nonempty by the guard in the caller. -/
def nearestPlayerDist (alivePos : List Vec) (food : Vec) : ℚ :=
  match alivePos.map fun playerPos => dist2 playerPos food with
  | [] => 0
  | d :: ds => ds.foldl min d

def MAX_FOOD : ℕ := 400

/-- `cleanupDistantFood()` from index.ts, over explicit players and foods.
Sort descending by distance-to-nearest-living-player (the JS comparator
`b.nearestPlayerDist - a.nearestPlayerDist` on a stable sort), keep the last
`MAX_FOOD - 50` entries (the closest ones). -/
def cleanupDistantFood (players : List PlayerState) (foods : List Vec) : List Vec :=
  if foods.length ≤ MAX_FOOD then foods
  else
    let playerPositions := (players.filter fun p => p.alive).map fun p => p.pos
    if playerPositions.length = 0 then foods
    else
      let sorted := foods.mergeSort fun a b =>
        nearestPlayerDist playerPositions b ≤ nearestPlayerDist playerPositions a
      let toKeep := MAX_FOOD - 50
      sorted.drop (sorted.length - toKeep)

/-! ## Tournament round expiry (inside `startRoomGameLoop` in index.ts) -/

inductive RoomLifecycle
  | waiting
  | ready_check
  | countdown
  | active
  | finished
  | freeplay
deriving DecidableEq, Repr

/-- The slice of `Room` that the round-expiry check reads and writes:
config type, lifecycle state, timing, active players and the recorded
`tournament.topPlayers`. -/
structure TournRoom where
  isTournament : Bool
  state : RoomLifecycle
  roundStartTime : ℤ
  roundDuration : ℤ
  activePlayers : List PlayerState
  topPlayers : List (String × String × ℚ)
deriving DecidableEq, Repr

/-- The winner fold from index.ts:
`players.reduce((top, p) => p.score > top.score ? p : top)` —
strict `>`, so the first maximum in iteration order wins. -/
def pickTop (top p : PlayerState) : PlayerState :=
  if p.score > top.score then p else top

/-- The auto-end block of `startRoomGameLoop` (times in ms): when the room
is an active tournament room and `remaining = max(0, duration - (now -
start))` has hit 0, transition to `finished` and record the winner — the
`reduce` runs over ALL active players, with no filter on `alive`. -/
def checkTournamentEnd (room : TournRoom) (now : ℤ) : TournRoom :=
  if room.isTournament = true ∧ room.state = .active then
    let elapsed := now - room.roundStartTime
    let remaining := max 0 (room.roundDuration - elapsed)
    if remaining ≤ 0 then
      let room' : TournRoom := { room with state := .finished }
      match room'.activePlayers with
      | [] => room'
      | h :: t =>
        let winner := t.foldl pickTop h
        { room' with topPlayers := [(winner.id, winner.name, winner.score)] }
    else room
  else room

/-- Modelled from the spec: "the worm with the highest current score" among
LIVING worms — the reading asserted by the claim under test, for comparison
with `checkTournamentEnd` (which does not filter by aliveness). -/
def specWinnerAmongLiving (players : List PlayerState) : Option PlayerState :=
  match players.filter fun p => p.alive with
  | [] => none
  | h :: t => some (t.foldl pickTop h)

/-! ## Respawn handler (the `msg.type === "respawn"` branch of the
message handler in index.ts) -/

/-- World sizes from the fixed `ROOM_CONFIGS` table. -/
def chillWorld : World := { width := 2500, height := 1500 }

def deathmatchWorld : World := { width := 1000, height := 600 }

/-- The respawn branch: honored only while the bound worm is dead; the
world is always taken from the chill room (`rooms.get("chill")`), no matter
which room the worm is bound to.  `r1, r2` are the position draws, `r3` the
heading draw. -/
def respawnHandler (me : PlayerState) (r1 r2 r3 : ℚ) : PlayerState :=
  if me.alive = true then me
  else
    { me with pos := { x := r1 * chillWorld.width, y := r2 * chillWorld.height },
              angle := r3 * jsPI * 2,
              body := [], score := 10, alive := true, turn := 0, boosting := false,
              thickness := 14 }

/-! ## Shared helpers for concrete runs -/

/-- Oracle for `Math.cos` in concrete runs: all headings used there are `0`,
where the cosine is exactly `1`. -/
def oneF : ℚ → ℚ := fun _ => 1

/-- Oracle for `Math.sin` in concrete runs: all headings used there are `0`,
where the sine is exactly `0`. -/
def zeroF : ℚ → ℚ := fun _ => 0

/-- A concrete `Math.random` stream, constantly `1/2`. -/
def halfR : ℕ → ℚ := fun _ => 1 / 2

/-- A freshly spawned player as `spawnPlayerInRoom` produces it (score 10,
heading 0, base speed and thickness), at a chosen position and with a chosen
body trail. -/
def mkPlayer (pid : String) (px py : ℚ) (bd : List Vec) : PlayerState :=
  { id := pid, name := pid, color := "#22cc88", avatar := none, pos := { x := px, y := py },
    angle := 0, speed := 4.0, body := bd, score := 10, alive := true, turn := 0,
    boosting := false, thickness := 14 }

/-! ## C6 — wrap range and idempotence -/

/-- `wrap` is the identity on `[0, size)`. -/
theorem wrap_eq_self (v size : ℚ) (h0 : 0 ≤ v) (h1 : v < size) : wrap v size = v := by
  unfold wrap
  split_ifs <;> linarith

/-- C6 (counterexample): `wrap` performs a single wrap-around step only, so
for `v = -6`, `size = 3` the result `-3` is outside `[0, 3)` and applying
`wrap` again gives `0 ≠ -3`: neither the range claim nor idempotence holds
for arbitrary real `v`. -/
theorem C6_cex :
    wrap (-6) 3 = -3 ∧ ¬ (0 ≤ wrap (-6) 3 ∧ wrap (-6) 3 < 3) ∧
    wrap (wrap (-6) 3) 3 = 0 ∧ wrap (wrap (-6) 3) 3 ≠ wrap (-6) 3 := by
  refine ⟨by norm_num [wrap], ?_, by norm_num [wrap], by norm_num [wrap]⟩
  norm_num [wrap]

/-- C6 (amended): for inputs within one wrap-around step of range,
`-size ≤ v < 2*size` with `size > 0` — which covers every position produced
by a single tick's movement — `wrap(v, size)` lies in `[0, size)` and is
idempotent there. -/
theorem C6_wrap_single_step (v size : ℚ) (_hs : 0 < size) (h1 : -size ≤ v)
    (h2 : v < 2 * size) :
    0 ≤ wrap v size ∧ wrap v size < size ∧ wrap (wrap v size) size = wrap v size := by
  have hmem : 0 ≤ wrap v size ∧ wrap v size < size := by
    unfold wrap
    split_ifs <;> constructor <;> linarith
  exact ⟨hmem.1, hmem.2, wrap_eq_self _ _ hmem.1 hmem.2⟩

/-- C6 (witness): the amended theorem at `v = 5`, `size = 3`. -/
theorem C6_witness :
    0 ≤ wrap 5 3 ∧ wrap 5 3 < 3 ∧ wrap (wrap 5 3) 3 = wrap 5 3 :=
  C6_wrap_single_step 5 3 (by norm_num) (by norm_num) (by norm_num)

/-! ## C7 — the cross-edge wrapDelta regression value -/

/-- C7 (counterexample): the claimed literal value is wrong: the source
comment (and the spec) say `wrapDelta(5 - 2999, 3000) == -6`, but the code
returns `+6` (the shortest path from 2999 to 5 crosses the edge forward). -/
theorem C7_cex : wrapDelta (5 - 2999) 3000 ≠ -6 := by
  norm_num [wrapDelta]

/-- C7 (amended): `wrapDelta(5 - 2999, 3000)` equals `+6`, the cross-edge
shortest-path delta as the code actually computes it. -/
theorem C7_wrapDelta_cross_edge : wrapDelta (5 - 2999) 3000 = 6 := by
  norm_num [wrapDelta]

/-! ## C9 — respawn always samples the chill room's world -/

/-- C9: a dead worm's respawn position is `(r1 * 2500, r2 * 1500)` — the
chill room's world, the only world `respawnHandler` reads — so it always
lies in `[0, 2500) × [0, 1500)`; and some outcomes (e.g. draws of `9/10`)
lie outside the deathmatch room's `1000 × 600` world, so a worm bound to
that room can respawn outside its own room's bounds. -/
theorem C9_respawn_uses_chill_world (me : PlayerState) (r1 r2 r3 : ℚ)
    (hdead : me.alive = false) (h1 : 0 ≤ r1) (h1' : r1 < 1) (h2 : 0 ≤ r2) (h2' : r2 < 1) :
    (respawnHandler me r1 r2 r3).pos.x = r1 * chillWorld.width ∧
    (respawnHandler me r1 r2 r3).pos.y = r2 * chillWorld.height ∧
    (0 ≤ (respawnHandler me r1 r2 r3).pos.x ∧
      (respawnHandler me r1 r2 r3).pos.x < chillWorld.width) ∧
    (0 ≤ (respawnHandler me r1 r2 r3).pos.y ∧
      (respawnHandler me r1 r2 r3).pos.y < chillWorld.height) ∧
    (respawnHandler me r1 r2 r3).alive = true ∧
    (∃ s1 s2 : ℚ, 0 ≤ s1 ∧ s1 < 1 ∧ 0 ≤ s2 ∧ s2 < 1 ∧
      deathmatchWorld.width ≤ (respawnHandler me s1 s2 r3).pos.x ∧
      deathmatchWorld.height ≤ (respawnHandler me s1 s2 r3).pos.y) := by
  have hre : ∀ a b : ℚ, respawnHandler me a b r3
      = { me with pos := { x := a * chillWorld.width, y := b * chillWorld.height },
                  angle := r3 * jsPI * 2, body := [], score := 10, alive := true,
                  turn := 0, boosting := false, thickness := 14 } := by
    intro a b
    simp [respawnHandler, hdead]
  simp only [hre, chillWorld, deathmatchWorld]
  refine ⟨trivial, trivial, ⟨?_, ?_⟩, ⟨?_, ?_⟩, trivial,
    ⟨9/10, 9/10, by norm_num, by norm_num, by norm_num, by norm_num, ?_, ?_⟩⟩
  · nlinarith
  · nlinarith
  · nlinarith
  · nlinarith
  · norm_num
  · norm_num

/-- C9 (witness): the theorem at a concrete dead worm and draws `1/2`. -/
theorem C9_witness :
    (respawnHandler { mkPlayer "w" 5 5 [] with alive := false } (1/2) (1/2) 0).pos.x
        = (1/2 : ℚ) * chillWorld.width ∧
    (respawnHandler { mkPlayer "w" 5 5 [] with alive := false } (1/2) (1/2) 0).pos.y
        = (1/2 : ℚ) * chillWorld.height ∧
    (0 ≤ (respawnHandler { mkPlayer "w" 5 5 [] with alive := false } (1/2) (1/2) 0).pos.x ∧
      (respawnHandler { mkPlayer "w" 5 5 [] with alive := false } (1/2) (1/2) 0).pos.x
        < chillWorld.width) ∧
    (0 ≤ (respawnHandler { mkPlayer "w" 5 5 [] with alive := false } (1/2) (1/2) 0).pos.y ∧
      (respawnHandler { mkPlayer "w" 5 5 [] with alive := false } (1/2) (1/2) 0).pos.y
        < chillWorld.height) ∧
    (respawnHandler { mkPlayer "w" 5 5 [] with alive := false } (1/2) (1/2) 0).alive = true ∧
    (∃ s1 s2 : ℚ, 0 ≤ s1 ∧ s1 < 1 ∧ 0 ≤ s2 ∧ s2 < 1 ∧
      deathmatchWorld.width
          ≤ (respawnHandler { mkPlayer "w" 5 5 [] with alive := false } s1 s2 0).pos.x ∧
      deathmatchWorld.height
          ≤ (respawnHandler { mkPlayer "w" 5 5 [] with alive := false } s1 s2 0).pos.y) :=
  C9_respawn_uses_chill_world _ (1/2) (1/2) 0 rfl (by norm_num) (by norm_num)
    (by norm_num) (by norm_num)

/-! ## C4 — tournament round expiry and winner recording -/

/-- The winner fold keeps the FIRST maximum in iteration order: the result
splits the list as `l1 ++ winner :: l2` where everything scores at most the
winner and everything strictly before it scores strictly less. -/
theorem foldl_pickTop_spec (h : PlayerState) (t : List PlayerState) :
    ∃ l1 l2, h :: t = l1 ++ (t.foldl pickTop h) :: l2 ∧
      (∀ p ∈ h :: t, p.score ≤ (t.foldl pickTop h).score) ∧
      (∀ p ∈ l1, p.score < (t.foldl pickTop h).score) := by
  induction t generalizing h with
  | nil =>
    refine ⟨[], [], rfl, ?_, by simp⟩
    intro p hp
    simp only [List.foldl_nil]
    rcases List.mem_singleton.mp hp with rfl
    exact le_refl _
  | cons b t ih =>
    simp only [List.foldl_cons]
    by_cases hb : b.score > h.score
    · have hpick : pickTop h b = b := by simp [pickTop, hb]
      rw [hpick]
      obtain ⟨l1, l2, heq, hle, hlt⟩ := ih b
      have hbw : b.score ≤ (t.foldl pickTop b).score := hle b (List.mem_cons_self _ _)
      refine ⟨h :: l1, l2, ?_, ?_, ?_⟩
      · simpa using congrArg (List.cons h) heq
      · intro p hp
        rcases List.mem_cons.mp hp with rfl | hp'
        · exact le_of_lt (lt_of_lt_of_le hb hbw)
        · exact hle p hp'
      · intro p hp
        rcases List.mem_cons.mp hp with rfl | hp'
        · exact lt_of_lt_of_le hb hbw
        · exact hlt p hp'
    · have hpick : pickTop h b = h := by simp [pickTop, hb]
      rw [hpick]
      have hbh : b.score ≤ h.score := le_of_not_lt hb
      obtain ⟨l1, l2, heq, hle, hlt⟩ := ih h
      have hhw : h.score ≤ (t.foldl pickTop h).score := hle h (List.mem_cons_self _ _)
      cases l1 with
      | nil =>
        simp only [List.nil_append] at heq
        refine ⟨[], b :: l2, ?_, ?_, by simp⟩
        · rw [List.nil_append]
          have hw : t.foldl pickTop h = h := ((List.cons_eq_cons.mp heq).1).symm
          have hl2 : t = l2 := (List.cons_eq_cons.mp heq).2
          rw [hw, ← hl2]
        · intro p hp
          rcases List.mem_cons.mp hp with rfl | hp'
          · exact hhw
          · rcases List.mem_cons.mp hp' with rfl | hp''
            · exact le_trans hbh hhw
            · exact hle p (List.mem_cons_of_mem _ hp'')
      | cons x l1' =>
        have hx : h = x := (List.cons_eq_cons.mp heq).1
        have ht : t = l1' ++ (t.foldl pickTop h) :: l2 := (List.cons_eq_cons.mp heq).2
        have hhlt : h.score < (t.foldl pickTop h).score := by
          have := hlt x (List.mem_cons_self _ _)
          rwa [← hx] at this
        refine ⟨h :: b :: l1', l2, ?_, ?_, ?_⟩
        · simp only [List.cons_append]
          rw [← ht]
        · intro p hp
          rcases List.mem_cons.mp hp with rfl | hp'
          · exact le_of_lt hhlt
          · rcases List.mem_cons.mp hp' with rfl | hp''
            · exact le_trans hbh (le_of_lt hhlt)
            · exact hle p (List.mem_cons_of_mem _ hp'')
        · intro p hp
          rcases List.mem_cons.mp hp with rfl | hp'
          · exact hhlt
          · rcases List.mem_cons.mp hp' with rfl | hp''
            · exact lt_of_le_of_lt hbh hhlt
            · exact hlt p (List.mem_cons_of_mem _ hp'')

/-- A concrete expired tournament room: the dead worm "a" has the top score
(100), the living worm "b" scores 50. -/
def C4room : TournRoom :=
  { isTournament := true, state := .active, roundStartTime := 0, roundDuration := 600000,
    activePlayers := [{ mkPlayer "a" 10 10 [] with alive := false, score := 100 },
                      { mkPlayer "b" 20 20 [] with score := 50 }],
    topPlayers := [] }

/-- C4 (counterexample): at expiry the code records the highest-scoring worm
over ALL active players with no aliveness filter: in `C4room` the recorded
winner is the dead worm "a" (score 100), while the highest-scoring LIVING
worm is "b" — so "the recorded winner is the highest-scoring living worm"
fails. -/
theorem C4_cex :
    (checkTournamentEnd C4room 600000).state = RoomLifecycle.finished ∧
    (checkTournamentEnd C4room 600000).topPlayers = [("a", "a", 100)] ∧
    ((C4room.activePlayers.filter fun p => p.alive).map fun p => p.id) = ["b"] ∧
    (specWinnerAmongLiving C4room.activePlayers).map (fun p => p.id) = some "b" ∧
    (("a" : String), ("a" : String), (100 : ℚ)).1 ≠ "b" := by
  refine ⟨by decide, by decide, by decide, by decide, by decide⟩

/-- C4 (amended): for every tournament room in the active state, as soon as
`now - roundStartTime ≥ roundDuration` the check transitions the room to
`finished`, and the recorded winner is the first maximum-score worm in
iteration order among ALL active players — including dead ones (no
aliveness filter). -/
theorem C4_round_end_winner (room : TournRoom) (now : ℤ)
    (ht : room.isTournament = true) (ha : room.state = .active)
    (hexp : room.roundStartTime + room.roundDuration ≤ now)
    (h : PlayerState) (t : List PlayerState) (hp : room.activePlayers = h :: t) :
    (checkTournamentEnd room now).state = .finished ∧
    ∃ w l1 l2, room.activePlayers = l1 ++ w :: l2 ∧
      (checkTournamentEnd room now).topPlayers = [(w.id, w.name, w.score)] ∧
      (∀ p ∈ room.activePlayers, p.score ≤ w.score) ∧
      (∀ p ∈ l1, p.score < w.score) := by
  have hrem : max 0 (room.roundDuration - (now - room.roundStartTime)) ≤ 0 := by
    simp only [max_le_iff]
    omega
  have hcheck : checkTournamentEnd room now
      = { room with state := .finished,
                    topPlayers := [((t.foldl pickTop h).id, (t.foldl pickTop h).name,
                                    (t.foldl pickTop h).score)] } := by
    unfold checkTournamentEnd
    rw [if_pos ⟨ht, ha⟩, if_pos hrem]
    simp only [hp]
  obtain ⟨l1, l2, heq, hle, hlt⟩ := foldl_pickTop_spec h t
  rw [hcheck]
  refine ⟨rfl, t.foldl pickTop h, l1, l2, ?_, rfl, ?_, hlt⟩
  · rw [hp]; exact heq
  · intro p hpm
    rw [hp] at hpm
    exact hle p hpm

/-- C4 (witness): the amended theorem applied to `C4room` at the expiry
instant. -/
theorem C4_witness :
    (checkTournamentEnd C4room 600000).state = RoomLifecycle.finished ∧
    ∃ w l1 l2, C4room.activePlayers = l1 ++ w :: l2 ∧
      (checkTournamentEnd C4room 600000).topPlayers = [(w.id, w.name, w.score)] ∧
      (∀ p ∈ C4room.activePlayers, p.score ≤ w.score) ∧
      (∀ p ∈ l1, p.score < w.score) :=
  C4_round_end_winner C4room 600000 rfl rfl (by decide)
    { mkPlayer "a" 10 10 [] with alive := false, score := 100 }
    [{ mkPlayer "b" 20 20 [] with score := 50 }] rfl

/-! ## C8 — spatial grid insert/queryNearby round trip -/

/-- Generic sequence of insertions (segment, ownerId, segmentIndex). -/
def insertAll (g : SpatialGrid) (items : List (Vec × String × ℕ)) : SpatialGrid :=
  items.foldl (fun g it => g.insert it.1 it.2.1 it.2.2) g

/-- JS `%` on nonnegative dividends is periodic in the modulus. -/
theorem Int_tmod_add_right (a n : ℤ) (ha : 0 ≤ a) (hn : 0 < n) :
    Int.tmod (a + n) n = Int.tmod a n := by
  obtain ⟨p, rfl⟩ := Int.eq_ofNat_of_zero_le ha
  obtain ⟨q, rfl⟩ := Int.eq_ofNat_of_zero_le (le_of_lt hn)
  have h1 : (Int.ofNat p) + (Int.ofNat q) = Int.ofNat (p + q) := rfl
  show Int.tmod ((Int.ofNat p) + (Int.ofNat q)) (Int.ofNat q)
      = Int.tmod (Int.ofNat p) (Int.ofNat q)
  rw [h1]
  show Int.ofNat ((p + q) % q) = Int.ofNat (p % q)
  rw [Nat.add_mod_right]

theorem insert_cellSize (g : SpatialGrid) (s : Vec) (o : String) (i : ℕ) :
    (g.insert s o i).cellSize = g.cellSize := rfl

theorem insert_cols (g : SpatialGrid) (s : Vec) (o : String) (i : ℕ) :
    (g.insert s o i).cols = g.cols := rfl

theorem insert_rows (g : SpatialGrid) (s : Vec) (o : String) (i : ℕ) :
    (g.insert s o i).rows = g.rows := rfl

theorem insertAll_cellSize (items : List (Vec × String × ℕ)) (g : SpatialGrid) :
    (insertAll g items).cellSize = g.cellSize := by
  induction items generalizing g with
  | nil => rfl
  | cons it items ih => simpa [insertAll] using ih (g.insert it.1 it.2.1 it.2.2)

theorem insertAll_cols (items : List (Vec × String × ℕ)) (g : SpatialGrid) :
    (insertAll g items).cols = g.cols := by
  induction items generalizing g with
  | nil => rfl
  | cons it items ih => simpa [insertAll] using ih (g.insert it.1 it.2.1 it.2.2)

theorem insertAll_rows (items : List (Vec × String × ℕ)) (g : SpatialGrid) :
    (insertAll g items).rows = g.rows := by
  induction items generalizing g with
  | nil => rfl
  | cons it items ih => simpa [insertAll] using ih (g.insert it.1 it.2.1 it.2.2)

theorem insertAll_cellKey (items : List (Vec × String × ℕ)) (g : SpatialGrid) (x y : ℚ) :
    (insertAll g items).cellKey x y = g.cellKey x y := by
  unfold SpatialGrid.cellKey
  rw [insertAll_cellSize, insertAll_cols, insertAll_rows]

theorem insertAll_queryKeys (items : List (Vec × String × ℕ)) (g : SpatialGrid) (pos : Vec) :
    (insertAll g items).queryKeys pos = g.queryKeys pos := by
  unfold SpatialGrid.queryKeys
  rw [insertAll_cellSize, insertAll_cols, insertAll_rows]

/-- Every entry of a bucket of a grid built by insertions sits in the bucket
named by its own cell key. -/
theorem insertAll_buckets_key (items : List (Vec × String × ℕ)) (g : SpatialGrid)
    (hg : ∀ k e, e ∈ g.buckets k → g.cellKey e.segment.x e.segment.y = k) :
    ∀ k e, e ∈ (insertAll g items).buckets k →
      g.cellKey e.segment.x e.segment.y = k := by
  induction items generalizing g with
  | nil => exact hg
  | cons it items ih =>
    intro k e he
    have hstep : ∀ k e, e ∈ (g.insert it.1 it.2.1 it.2.2).buckets k →
        (g.insert it.1 it.2.1 it.2.2).cellKey e.segment.x e.segment.y = k := by
      intro k e he
      simp only [SpatialGrid.insert] at he ⊢
      by_cases hk : k = g.cellKey it.1.x it.1.y
      · rw [if_pos hk] at he
        rcases List.mem_append.mp he with hold | hnew
        · exact hg k e hold
        · rcases List.mem_singleton.mp hnew with rfl
          exact hk.symm
      · rw [if_neg hk] at he
        exact hg k e he
    have := ih (g.insert it.1 it.2.1 it.2.2) hstep k e (by simpa [insertAll] using he)
    simpa [SpatialGrid.insert, SpatialGrid.cellKey] using this

/-- C8 (counterexample): the claim fails for points with a negative cell
coordinate: `insert` buckets `(-50, -50)` under the un-biased JS-modulo key
`(-1, -1)`, but `queryNearby` only ever reads keys biased into
`[0, cols) × [0, rows)`, so the inserted segment is NOT among the results
of `queryNearby` at the very same point. -/
theorem C8_cex :
    (SpatialGrid.create 2000 1200 100).cellKey (-50) (-50) = (-1, -1) ∧
    ((SpatialGrid.create 2000 1200 100).insert { x := -50, y := -50 } "p1" 0).queryNearby
        { x := -50, y := -50 } = [] := by
  constructor
  · norm_num [SpatialGrid.create, SpatialGrid.cellKey]
    decide
  · norm_num [SpatialGrid.create, SpatialGrid.cellKey, SpatialGrid.insert,
      SpatialGrid.queryNearby, SpatialGrid.queryKeys]
    decide

/-- C8 (amended): for every point whose cell coordinates are nonnegative
(every wrapped in-world position), an inserted segment is among the results
of `queryNearby` at that point; and — for a grid built by any sequence of
insertions — every entry returned by `queryNearby(Q)` lies in one of the 9
wrapped cells of the 3×3 neighborhood of `Q`'s cell, so a segment in none
of them is absent.  The claim's extension to negative cell coordinates is
refuted by `C8_cex`. -/
theorem C8_grid_presence_absence :
    (∀ (g : SpatialGrid) (P : Vec) (owner : String) (idx : ℕ),
      0 < g.cols → 0 < g.rows → 0 ≤ ⌊P.x / g.cellSize⌋ → 0 ≤ ⌊P.y / g.cellSize⌋ →
      ({ segment := P, ownerId := owner, segmentIndex := idx } : GridEntry)
        ∈ (g.insert P owner idx).queryNearby P) ∧
    (∀ (w h c : ℚ) (items : List (Vec × String × ℕ)) (Q : Vec) (e : GridEntry),
      e ∈ (insertAll (SpatialGrid.create w h c) items).queryNearby Q →
      (SpatialGrid.create w h c).cellKey e.segment.x e.segment.y
        ∈ (SpatialGrid.create w h c).queryKeys Q) := by
  constructor
  · intro g P owner idx hcols hrows hx hy
    unfold SpatialGrid.queryNearby
    apply List.mem_flatMap.mpr
    refine ⟨g.cellKey P.x P.y, ?_, ?_⟩
    · unfold SpatialGrid.queryKeys
      rw [insert_cellSize, insert_cols, insert_rows]
      apply List.mem_flatMap.mpr
      refine ⟨0, by simp, ?_⟩
      apply List.mem_map.mpr
      refine ⟨0, by simp, ?_⟩
      unfold SpatialGrid.cellKey
      rw [add_zero, add_zero, Int_tmod_add_right _ _ hx hcols,
        Int_tmod_add_right _ _ hy hrows]
    · show _ ∈ (g.insert P owner idx).buckets (g.cellKey P.x P.y)
      simp [SpatialGrid.insert]
  · intro w h c items Q e he
    unfold SpatialGrid.queryNearby at he
    obtain ⟨k, hk, hin⟩ := List.mem_flatMap.mp he
    have hkey := insertAll_buckets_key items (SpatialGrid.create w h c)
      (by intro k e he; simp [SpatialGrid.create] at he) k e hin
    rw [insertAll_queryKeys] at hk
    rw [hkey]
    exact hk

/-- C8 (witness): presence for a segment at `(150, 150)` in a 2000×1200
grid, and the 9-cell location of an entry returned for the same query. -/
theorem C8_witness :
    (({ segment := { x := 150, y := 150 }, ownerId := "p1", segmentIndex := 0 } : GridEntry)
        ∈ ((SpatialGrid.create 2000 1200 100).insert { x := 150, y := 150 } "p1" 0).queryNearby
            { x := 150, y := 150 }) ∧
    ((SpatialGrid.create 2000 1200 100).cellKey 150 150
        ∈ (SpatialGrid.create 2000 1200 100).queryKeys { x := 150, y := 150 }) :=
  ⟨C8_grid_presence_absence.1 (SpatialGrid.create 2000 1200 100) { x := 150, y := 150 } "p1" 0
      (by norm_num [SpatialGrid.create]) (by norm_num [SpatialGrid.create])
      (by norm_num [SpatialGrid.create]) (by norm_num [SpatialGrid.create]),
   C8_grid_presence_absence.2 2000 1200 100 [({ x := 150, y := 150 }, "p1", 0)]
      { x := 150, y := 150 }
      { segment := { x := 150, y := 150 }, ownerId := "p1", segmentIndex := 0 }
      (by norm_num [insertAll, SpatialGrid.create, SpatialGrid.cellKey, SpatialGrid.insert,
            SpatialGrid.queryNearby, SpatialGrid.queryKeys]
          decide)⟩

/-! ## Pass-preservation lemmas: the food and collision passes never touch
a player's body, and the step never removes plain food. -/

theorem awardFirstEater_bodies (f : Vec) (v : ℚ) :
    ∀ ps ps', awardFirstEater f v ps = some ps' →
      ps'.map (fun p => p.body) = ps.map (fun p => p.body) := by
  intro ps
  induction ps with
  | nil => intro ps' h; simp [awardFirstEater] at h
  | cons p ps ih =>
    intro ps' h
    rw [awardFirstEater] at h
    split at h
    · rcases Option.some_injective _ h with rfl
      simp
    · revert h
      split
      · next ps'' heq =>
        intro h
        rcases Option.some_injective _ h with rfl
        simpa using ih ps'' heq
      · intro h
        simp at h

theorem eatFoodsAux_players_bodies (world : World) (r : ℕ → ℚ) :
    ∀ i ps fs n,
      ((eatFoodsAux world r i ps fs n).1).map (fun p => p.body)
        = ps.map (fun p => p.body) := by
  intro i
  induction i with
  | zero => intro ps fs n; rfl
  | succ i ih =>
    intro ps fs n
    rw [eatFoodsAux]
    cases hf : fs[i]? with
    | none => dsimp only; exact ih ps fs n
    | some f =>
      dsimp only
      cases ha : awardFirstEater f 1 ps with
      | none => exact ih ps fs n
      | some ps' =>
        dsimp only
        rw [ih]
        exact awardFirstEater_bodies f 1 ps ps' ha

theorem eatBonusAux_players_bodies (world : World) (r : ℕ → ℚ) :
    ∀ i ps bs n,
      ((eatBonusAux world r i ps bs n).1).map (fun p => p.body)
        = ps.map (fun p => p.body) := by
  intro i
  induction i with
  | zero => intro ps bs n; rfl
  | succ i ih =>
    intro ps bs n
    rw [eatBonusAux]
    cases hf : bs[i]? with
    | none => dsimp only; exact ih ps bs n
    | some f =>
      dsimp only
      cases ha : awardFirstEater { x := f.x, y := f.y } f.value ps with
      | none => exact ih ps bs n
      | some ps' =>
        dsimp only
        rw [ih]
        exact awardFirstEater_bodies _ _ ps ps' ha

theorem bodyPass_players_bodies (cosf sinf : ℚ → ℚ) (world : World) (r : ℕ → ℚ)
    (grid : SpatialGrid) :
    ∀ ps foods n,
      ((bodyPass cosf sinf world r grid ps foods n).1).map (fun p => p.body)
        = ps.map (fun p => p.body) := by
  intro ps
  induction ps with
  | nil => intro foods n; rfl
  | cons p ps ih =>
    intro foods n
    rw [bodyPass]
    split
    · simp
    · rcases hb : bodyPass cosf sinf world r grid ps foods n with ⟨ps', foods', dead', n'⟩
      have := ih foods n
      rw [hb] at this
      simpa using this

theorem markDead_bodies (playerId : String) (ps : List PlayerState) :
    (markDead playerId ps).map (fun p => p.body) = ps.map (fun p => p.body) := by
  induction ps with
  | nil => rfl
  | cons p ps ih =>
    simp only [markDead, List.map_cons] at ih ⊢
    rw [ih]
    by_cases hp : p.id = playerId <;> simp [hp]

theorem h2hInner_players_bodies (cosf sinf : ℚ → ℚ) (world : World) (r : ℕ → ℚ)
    (a : PlayerState) :
    ∀ bs players foods dead n,
      ((h2hInner cosf sinf world r a bs (players, foods, dead, n)).1).map (fun p => p.body)
        = players.map (fun p => p.body) := by
  intro bs
  induction bs with
  | nil => intro players foods dead n; rfl
  | cons b bs ih =>
    intro players foods dead n
    rw [h2hInner]
    split
    · rcases hfa : createFoodBurstInRoom cosf sinf a world r n with ⟨fa, n1⟩
      rcases hfb : createFoodBurstInRoom cosf sinf b world r n1 with ⟨fb, n2⟩
      rw [ih]
      rw [markDead_bodies, markDead_bodies]
    · exact ih players foods dead n

theorem h2hOuter_players_bodies (cosf sinf : ℚ → ℚ) (world : World) (r : ℕ → ℚ) :
    ∀ l players foods dead n,
      ((h2hOuter cosf sinf world r l (players, foods, dead, n)).1).map (fun p => p.body)
        = players.map (fun p => p.body) := by
  intro l
  induction l with
  | nil => intro players foods dead n; rfl
  | cons a l ih =>
    intro players foods dead n
    rw [h2hOuter]
    rcases hin : h2hInner cosf sinf world r a l (players, foods, dead, n)
      with ⟨players1, foods1, dead1, n1⟩
    rw [ih]
    have := h2hInner_players_bodies cosf sinf world r a l players foods dead n
    rw [hin] at this
    exact this

/-- After a full tick, the players list carries exactly the bodies produced
by the movement/growth phase: no later pass modifies a body. -/
theorem stepRoom_players_bodies (cosf sinf : ℚ → ℚ) (r : ℕ → ℚ) (world : World)
    (st : GameState) :
    ((stepRoom cosf sinf r world st).1.activePlayers).map (fun p => p.body)
      = (st.activePlayers.map (movePlayer cosf sinf world)).map (fun p => p.body) := by
  rcases hef : eatFoods world r (st.activePlayers.map (movePlayer cosf sinf world)) st.foods 0
    with ⟨players2, foods2, n2⟩
  rcases heb : eatBonus world r players2 st.bonusFood n2 with ⟨players3, bonus3, n3⟩
  rcases hbp : bodyPass cosf sinf world r (buildGrid world players3) players3 foods2 n3
    with ⟨players4, foods4, dead4, n4⟩
  rcases hh : h2hPass cosf sinf world r players4 foods4 dead4 n4
    with ⟨players5, foods5, dead5, n5⟩
  have hstep : stepRoom cosf sinf r world st
      = ({ activePlayers := players5, foods := foods5, bonusFood := bonus3 }, dead5) := by
    unfold stepRoom
    dsimp only
    rw [hef]
    dsimp only
    rw [heb]
    dsimp only
    rw [hbp]
    dsimp only
    rw [hh]
  have h5 : players5.map (fun p => p.body) = players4.map (fun p => p.body) := by
    have := h2hOuter_players_bodies cosf sinf world r
      (players4.filter fun p => p.alive) players4 foods4 dead4 n4
    rw [show h2hOuter cosf sinf world r (players4.filter fun p => p.alive)
          (players4, foods4, dead4, n4) = h2hPass cosf sinf world r players4 foods4 dead4 n4
        from rfl, hh] at this
    exact this
  have h4 : players4.map (fun p => p.body) = players3.map (fun p => p.body) := by
    have := bodyPass_players_bodies cosf sinf world r (buildGrid world players3)
      players3 foods2 n3
    rw [hbp] at this
    exact this
  have h3 : players3.map (fun p => p.body) = players2.map (fun p => p.body) := by
    have := eatBonusAux_players_bodies world r st.bonusFood.length players2 st.bonusFood n2
    rw [show eatBonusAux world r st.bonusFood.length players2 st.bonusFood n2
          = eatBonus world r players2 st.bonusFood n2 from rfl, heb] at this
    exact this
  have h2 : players2.map (fun p => p.body)
      = (st.activePlayers.map (movePlayer cosf sinf world)).map (fun p => p.body) := by
    have := eatFoodsAux_players_bodies world r st.foods.length
      (st.activePlayers.map (movePlayer cosf sinf world)) st.foods 0
    rw [show eatFoodsAux world r st.foods.length
          (st.activePlayers.map (movePlayer cosf sinf world)) st.foods 0
          = eatFoods world r (st.activePlayers.map (movePlayer cosf sinf world)) st.foods 0
        from rfl, hef] at this
    exact this
  rw [hstep]
  dsimp only
  rw [h5, h4, h3, h2]

/-! ## C3 — body length after a tick -/

theorem calculateBodyLength_ge (s : ℚ) : 15 ≤ calculateBodyLength s := by
  simp only [calculateBodyLength]
  exact le_min (le_max_left _ _) (by norm_num)

/-- The growth step of the movement loop: the new body is the new head
prepended to the old body, truncated to the score-derived target — so its
length is `min (old + 1) target`, with the target computed at the
post-boost-drain score. -/
theorem movePlayer_body_length (cosf sinf : ℚ → ℚ) (world : World) (p : PlayerState)
    (halive : p.alive = true) :
    (movePlayer cosf sinf world p).body.length
      = min (p.body.length + 1) (calculateBodyLength (boostedScore p)).toNat := by
  have hne : ¬ (p.alive = false) := by simp [halive]
  have hT15 : 15 ≤ calculateBodyLength (boostedScore p) := calculateBodyLength_ge _
  simp only [movePlayer, if_neg hne]
  split_ifs with h
  · rw [List.length_take, List.length_cons]
    rw [List.length_cons] at h
    omega
  · rw [List.length_cons] at h ⊢
    omega

/-- C3 (amended): after a full tick, every worm alive at tick entry has body
length `min (previous length + 1, clamp(floor(score*0.8), 15, 300))`, the
clamp taken at the post-boost-drain score in the growth phase — in
particular the length is 1, not 15, on the first tick after a spawn. -/
theorem C3_body_growth (cosf sinf : ℚ → ℚ) (r : ℕ → ℚ) (world : World) (st : GameState)
    (i : ℕ) (hi : i < st.activePlayers.length)
    (halive : (st.activePlayers.get ⟨i, hi⟩).alive = true) :
    ∃ hj : i < (stepRoom cosf sinf r world st).1.activePlayers.length,
      ((stepRoom cosf sinf r world st).1.activePlayers.get ⟨i, hj⟩).body.length
        = min ((st.activePlayers.get ⟨i, hi⟩).body.length + 1)
            (calculateBodyLength (boostedScore (st.activePlayers.get ⟨i, hi⟩))).toNat := by
  have hmap := stepRoom_players_bodies cosf sinf r world st
  have hlen : (stepRoom cosf sinf r world st).1.activePlayers.length
      = st.activePlayers.length := by
    have := congrArg List.length hmap
    simpa using this
  have hj : i < (stepRoom cosf sinf r world st).1.activePlayers.length := by omega
  refine ⟨hj, ?_⟩
  have hb : ((stepRoom cosf sinf r world st).1.activePlayers.get ⟨i, hj⟩).body
      = (movePlayer cosf sinf world (st.activePlayers.get ⟨i, hi⟩)).body := by
    have e1 : ((stepRoom cosf sinf r world st).1.activePlayers.get ⟨i, hj⟩).body
        = ((stepRoom cosf sinf r world st).1.activePlayers.map (fun p => p.body)).get
            ⟨i, by simpa using hj⟩ := by
      rw [List.get_map]
    have e2 : ((st.activePlayers.map (movePlayer cosf sinf world)).map
          (fun p => p.body)).get ⟨i, by simpa using hi⟩
        = (movePlayer cosf sinf world (st.activePlayers.get ⟨i, hi⟩)).body := by
      rw [List.get_map, List.get_map]
    rw [e1, ← e2]
    exact List.get_of_eq hmap ⟨i, by simpa using hj⟩
  rw [hb]
  exact movePlayer_body_length cosf sinf world _ halive

/-- A room holding a single freshly spawned worm (empty body, score 10). -/
def C3state : GameState :=
  { activePlayers := [mkPlayer "w" 100 100 []], foods := [], bonusFood := [] }

/-- C3 (counterexample): on the first tick after a spawn the worm's body has
length 1, while `clamp(floor(score*0.8), 15, 300) = 15`: the claimed
invariant fails on the first ticks after spawn/respawn, because the body
grows by at most one segment per tick. -/
theorem C3_cex :
    ((stepRoom oneF zeroF halfR chillWorld C3state).1.activePlayers.map
        fun p => (p.alive, p.score, p.body.length)) = [(true, 10, 1)] ∧
    calculateBodyLength 10 = 15 ∧ (1 : ℕ) ≠ 15 := by
  refine ⟨?_, by norm_num [calculateBodyLength], by norm_num⟩
  norm_num +decide [stepRoom, C3state, mkPlayer, movePlayer, boostedSpeed, boostedScore, boostedFlag,
    oneF, zeroF, halfR, chillWorld, wrap, dist2, eatFoods, eatFoodsAux, eatBonus, eatBonusAux,
    awardFirstEater, buildGrid, insertSegs, SpatialGrid.create, SpatialGrid.insert,
    SpatialGrid.cellKey, SpatialGrid.queryNearby, SpatialGrid.queryKeys, bodyPass, killsHead,
    createFoodBurstInRoom, burstSegAux, burstBonusAux, h2hPass, h2hOuter, h2hInner, markDead,
    generateBonusFoodForRoom, FoodType.points, calculateBodyLength, calculateThickness,
    TURN_SPEED, BASE_SPEED, BOOST_MULTIPLIER, BOOST_COST_PER_TICK, FOOD_R2, HEAD_R2, jsPI]

/-- C3 (witness): the amended theorem at the fresh single-worm room. -/
theorem C3_witness :
    ∃ hj : 0 < (stepRoom oneF zeroF halfR chillWorld C3state).1.activePlayers.length,
      ((stepRoom oneF zeroF halfR chillWorld C3state).1.activePlayers.get ⟨0, hj⟩).body.length
        = min ((C3state.activePlayers.get ⟨0, by norm_num [C3state]⟩).body.length + 1)
            (calculateBodyLength
              (boostedScore (C3state.activePlayers.get ⟨0, by norm_num [C3state]⟩))).toNat :=
  C3_body_growth oneF zeroF halfR chillWorld C3state 0 (by norm_num [C3state])
    (by norm_num [C3state, mkPlayer])

/-! ## C2 — the head-to-body pass stops after the FIRST death -/

/-- Two interlocked worms: each one's post-move head lies within `HEAD_R2`
of a segment of the other (heads 20 apart, so no head-to-head kill). -/
def C2state : GameState :=
  { activePlayers :=
      [mkPlayer "a" 96 100 [{ x := 96, y := 100 }, { x := 100, y := 112 }],
       mkPlayer "b" 96 120 [{ x := 100, y := 110 }]],
    foods := [], bonusFood := [] }

/-- C2 (counterexample): in `C2state` both worms' heads end the tick within
`HEAD_R2` of the other worm's body ("b"'s head `(100,120)` is 8 units from
"a"'s segment `(100,112)`), yet the tick's dead list is `["a"]` only and
"b" survives: the `break` in the body-collision loop aborts the whole pass
at the first death, so a second worm is never even checked. -/
theorem C2_cex :
    (stepRoom oneF zeroF halfR chillWorld C2state).2 = ["a"] ∧
    ((stepRoom oneF zeroF halfR chillWorld C2state).1.activePlayers.map
        fun p => (p.id, p.alive, p.pos, p.body))
      = [("a", false, { x := 100, y := 100 },
            [{ x := 100, y := 100 }, { x := 96, y := 100 }, { x := 100, y := 112 }]),
         ("b", true, { x := 100, y := 120 },
            [{ x := 100, y := 120 }, { x := 100, y := 110 }])] ∧
    dist2 { x := 100, y := 120 } { x := 100, y := 112 } < HEAD_R2 := by
  refine ⟨?_, ?_, by norm_num [dist2, HEAD_R2]⟩ <;>
  norm_num +decide [stepRoom, C2state, mkPlayer, movePlayer, boostedSpeed, boostedScore,
    boostedFlag, oneF, zeroF, halfR, chillWorld, wrap, dist2, eatFoods, eatFoodsAux, eatBonus,
    eatBonusAux, awardFirstEater, buildGrid, insertSegs, SpatialGrid.create, SpatialGrid.insert,
    SpatialGrid.cellKey, SpatialGrid.queryNearby, SpatialGrid.queryKeys, bodyPass, killsHead,
    createFoodBurstInRoom, burstSegAux, burstBonusAux, h2hPass, h2hOuter, h2hInner, markDead,
    generateBonusFoodForRoom, FoodType.points, calculateBodyLength, calculateThickness,
    TURN_SPEED, BASE_SPEED, BOOST_MULTIPLIER, BOOST_COST_PER_TICK, FOOD_R2, HEAD_R2, jsPI]

/-- C2 (amended): the body-collision pass kills at most ONE worm per tick:
on the first death it emits that worm's id and food burst and then stops
checking every remaining worm (the source `break`s out of the player loop),
not just the dead one. -/
theorem C2_body_pass_at_most_one_death (cosf sinf : ℚ → ℚ) (world : World) (r : ℕ → ℚ)
    (grid : SpatialGrid) :
    ∀ ps foods n, ((bodyPass cosf sinf world r grid ps foods n).2.2.1).length ≤ 1 := by
  intro ps
  induction ps with
  | nil => intro foods n; simp [bodyPass]
  | cons p ps ih =>
    intro foods n
    rw [bodyPass]
    split
    · rcases hcb : createFoodBurstInRoom cosf sinf p world r n with ⟨bf, n'⟩
      simp
    · rcases hb : bodyPass cosf sinf world r grid ps foods n with ⟨ps', foods', dead', n'⟩
      have := ih foods n
      rw [hb] at this
      simpa using this

/-! ## C10 — the head-to-head pass never re-checks aliveness -/

/-- The fatal pairs of the head-to-head scan, read off the snapshot alone:
for every pair `(i, j)`, `i < j`, of the once-filtered list whose heads are
within `HEAD_R2`, both ids in order.  A worm in several fatal pairs occurs
several times. -/
def fatalPairIds : List PlayerState → List String
  | [] => []
  | a :: rest =>
    ((rest.filter fun b => decide (dist2 a.pos b.pos < HEAD_R2)).flatMap
        fun b => [a.id, b.id])
      ++ fatalPairIds rest

theorem h2hInner_dead (cosf sinf : ℚ → ℚ) (world : World) (r : ℕ → ℚ) (a : PlayerState) :
    ∀ bs players foods dead n,
      (h2hInner cosf sinf world r a bs (players, foods, dead, n)).2.2.1
        = dead ++ ((bs.filter fun b => decide (dist2 a.pos b.pos < HEAD_R2)).flatMap
            fun b => [a.id, b.id]) := by
  intro bs
  induction bs with
  | nil => intro players foods dead n; simp [h2hInner]
  | cons b bs ih =>
    intro players foods dead n
    rw [h2hInner]
    cases hd : decide (dist2 a.pos b.pos < HEAD_R2) with
    | true =>
      dsimp only
      rcases hfa : createFoodBurstInRoom cosf sinf a world r n with ⟨fa, n1⟩
      rcases hfb : createFoodBurstInRoom cosf sinf b world r n1 with ⟨fb, n2⟩
      rw [ih]
      simp [List.filter_cons, hd]
    | false =>
      dsimp only
      rw [ih]
      simp [List.filter_cons, hd]

theorem h2hOuter_dead (cosf sinf : ℚ → ℚ) (world : World) (r : ℕ → ℚ) :
    ∀ l players foods dead n,
      (h2hOuter cosf sinf world r l (players, foods, dead, n)).2.2.1
        = dead ++ fatalPairIds l := by
  intro l
  induction l with
  | nil => intro players foods dead n; simp [h2hOuter, fatalPairIds]
  | cons a rest ih =>
    intro players foods dead n
    rw [h2hOuter]
    rcases hin : h2hInner cosf sinf world r a rest (players, foods, dead, n)
      with ⟨p1, f1, d1, n1⟩
    have hd1 : d1 = dead ++ ((rest.filter fun b => decide (dist2 a.pos b.pos < HEAD_R2)).flatMap
        fun b => [a.id, b.id]) := by
      have := h2hInner_dead cosf sinf world r a rest players foods dead n
      rw [hin] at this
      exact this
    rw [ih, hd1, fatalPairIds]
    simp

/-- A room in which worm "d" (first in iteration order) dies on its own
distant body segment, while "a", "b", "c" end the tick with mutually close
heads (posts `(100,100)`, `(108,100)`, `(104,106)`). -/
def C10state : GameState :=
  { activePlayers :=
      [mkPlayer "d" 200 200 [{ x := 300, y := 300 }, { x := 300, y := 300 },
          { x := 300, y := 300 }, { x := 300, y := 300 }, { x := 300, y := 300 },
          { x := 204, y := 196 }],
       mkPlayer "a" 96 100 [], mkPlayer "b" 104 100 [], mkPlayer "c" 100 106 []],
    foods := [], bonusFood := [] }

/-- C10: the head-to-head pass filters living worms once and never re-checks
aliveness — its dead output is exactly `fatalPairIds` of the snapshot, both
ids appended once per fatal pair; concretely, after "d" dies in the body
pass (whose `break` leaves "a", "b", "c" alive and mutually within
`HEAD_R2`), the tick's dead list is `["d","a","b","a","c","b","c"]` — with
duplicates — and the 9 burst foods are one per worm per fatal pair (3 for
"d", 1 each for the six head-to-head pair memberships). -/
theorem C10_h2h_no_alive_recheck :
    (∀ (cosf sinf : ℚ → ℚ) (world : World) (r : ℕ → ℚ)
        (players : List PlayerState) (foods : List Vec) (dead : List String) (n : ℕ),
      (h2hPass cosf sinf world r players foods dead n).2.2.1
        = dead ++ fatalPairIds (players.filter fun p => p.alive)) ∧
    (stepRoom oneF zeroF halfR chillWorld C10state).2 = ["d", "a", "b", "a", "c", "b", "c"] ∧
    ¬ ((stepRoom oneF zeroF halfR chillWorld C10state).2).Nodup ∧
    (stepRoom oneF zeroF halfR chillWorld C10state).1.foods.length = 9 ∧
    dist2 { x := 100, y := 100 } { x := 108, y := 100 } < HEAD_R2 ∧
    dist2 { x := 100, y := 100 } { x := 104, y := 106 } < HEAD_R2 ∧
    dist2 { x := 108, y := 100 } { x := 104, y := 106 } < HEAD_R2 := by
  refine ⟨fun cosf sinf world r players foods dead n =>
      h2hOuter_dead cosf sinf world r (players.filter fun p => p.alive) players foods dead n,
    ?_, ?_, ?_, by norm_num [dist2, HEAD_R2], by norm_num [dist2, HEAD_R2],
    by norm_num [dist2, HEAD_R2]⟩ <;>
  norm_num +decide [stepRoom, C10state, mkPlayer, movePlayer, boostedSpeed, boostedScore,
    boostedFlag, oneF, zeroF, halfR, chillWorld, wrap, dist2, eatFoods, eatFoodsAux, eatBonus,
    eatBonusAux, awardFirstEater, buildGrid, insertSegs, SpatialGrid.create, SpatialGrid.insert,
    SpatialGrid.cellKey, SpatialGrid.queryNearby, SpatialGrid.queryKeys, bodyPass, killsHead,
    createFoodBurstInRoom, burstSegAux, burstBonusAux, h2hPass, h2hOuter, h2hInner, markDead,
    generateBonusFoodForRoom, FoodType.points, calculateBodyLength, calculateThickness,
    TURN_SPEED, BASE_SPEED, BOOST_MULTIPLIER, BOOST_COST_PER_TICK, FOOD_R2, HEAD_R2, jsPI]

/-! ## C1 — which distance the simulation step actually uses -/

/-- A worm whose post-move head `(2499, 100)` sits 2 units across the edge
from the food at `(1, 100)` in the 2500-wide chill world. -/
def C1state : GameState :=
  { activePlayers := [mkPlayer "w" 2495 100 []],
    foods := [{ x := 1, y := 100 }], bonusFood := [] }

/-- C1 (counterexample): the step's proximity tests use the plain `dist2`
from game-engine.ts, not the toroidal `torusDistSq`: the food at `(1,100)`
is at squared toroidal distance 4 (≤ `FOOD_R2`) from the head `(2499,100)`,
yet after the tick it is still there and the worm still has score 10 —
because `dist2` measures `2498² = 6240004`.  Two points near opposite edges
are treated as far, not close. -/
theorem C1_cex :
    torusDistSq { x := 2499, y := 100 } { x := 1, y := 100 } chillWorld ≤ FOOD_R2 ∧
    ¬ (dist2 { x := 2499, y := 100 } { x := 1, y := 100 } ≤ FOOD_R2) ∧
    dist2 { x := 2499, y := 100 } { x := 1, y := 100 }
      ≠ wrapDelta ((1 : ℚ) - 2499) chillWorld.width
          * wrapDelta ((1 : ℚ) - 2499) chillWorld.width
        + wrapDelta ((100 : ℚ) - 100) chillWorld.height
          * wrapDelta ((100 : ℚ) - 100) chillWorld.height ∧
    (stepRoom oneF zeroF halfR chillWorld C1state).1.foods = [{ x := 1, y := 100 }] ∧
    ((stepRoom oneF zeroF halfR chillWorld C1state).1.activePlayers.map
        fun p => (p.pos, p.score, p.alive)) = [({ x := 2499, y := 100 }, 10, true)] := by
  refine ⟨by norm_num [torusDistSq, wrapDelta, chillWorld, FOOD_R2],
    by norm_num [dist2, FOOD_R2], by norm_num [dist2, wrapDelta, chillWorld], ?_, ?_⟩ <;>
  norm_num +decide [stepRoom, C1state, mkPlayer, movePlayer, boostedSpeed, boostedScore,
    boostedFlag, oneF, zeroF, halfR, chillWorld, wrap, dist2, eatFoods, eatFoodsAux, eatBonus,
    eatBonusAux, awardFirstEater, buildGrid, insertSegs, SpatialGrid.create, SpatialGrid.insert,
    SpatialGrid.cellKey, SpatialGrid.queryNearby, SpatialGrid.queryKeys, bodyPass, killsHead,
    createFoodBurstInRoom, burstSegAux, burstBonusAux, h2hPass, h2hOuter, h2hInner, markDead,
    generateBonusFoodForRoom, FoodType.points, calculateBodyLength, calculateThickness,
    TURN_SPEED, BASE_SPEED, BOOST_MULTIPLIER, BOOST_COST_PER_TICK, FOOD_R2, HEAD_R2, jsPI]

/-- C1 (amended): the proximity tests of the step are the plain squared
Euclidean `dist2` — the food pickup fires exactly when
`dist2(head, food) ≤ FOOD_R2` — and `dist2` only agrees with the toroidal
`torusDistSq` when both per-axis deltas lie within half the world size;
cross-edge pairs are treated as far (see the counterexample). -/
theorem C1_step_distance_is_plain (a b : Vec) (w : World)
    (hx1 : -(w.width / 2) ≤ b.x - a.x) (hx2 : b.x - a.x ≤ w.width / 2)
    (hy1 : -(w.height / 2) ≤ b.y - a.y) (hy2 : b.y - a.y ≤ w.height / 2) :
    torusDistSq a b w = dist2 a b ∧
    (∀ (p : PlayerState) (f : Vec) (v : ℚ), p.alive = true →
      ((awardFirstEater f v [p]).isSome ↔ dist2 p.pos f ≤ FOOD_R2)) := by
  constructor
  · have ex : wrapDelta (b.x - a.x) w.width = b.x - a.x := by
      unfold wrapDelta
      split_ifs <;> first | rfl | linarith
    have ey : wrapDelta (b.y - a.y) w.height = b.y - a.y := by
      unfold wrapDelta
      split_ifs <;> first | rfl | linarith
    unfold torusDistSq dist2
    dsimp only
    rw [ex, ey]
    ring
  · intro p f v halive
    rw [awardFirstEater]
    split_ifs with h
    · simpa using h.2
    · rw [awardFirstEater]
      simp only [Option.isSome_none, Bool.false_eq_true, false_iff]
      intro hd
      exact h ⟨halive, hd⟩

/-- C1 (witness): the amended theorem for two in-range points of the chill
world, with the pickup characterization instantiated at a worm head 3 units
from a food. -/
theorem C1_witness :
    (torusDistSq { x := 10, y := 20 } { x := 13, y := 24 } chillWorld
        = dist2 { x := 10, y := 20 } { x := 13, y := 24 }) ∧
    (∀ (p : PlayerState) (f : Vec) (v : ℚ), p.alive = true →
      ((awardFirstEater f v [p]).isSome ↔ dist2 p.pos f ≤ FOOD_R2)) :=
  C1_step_distance_is_plain { x := 10, y := 20 } { x := 13, y := 24 } chillWorld
    (by norm_num [chillWorld]) (by norm_num [chillWorld])
    (by norm_num [chillWorld]) (by norm_num [chillWorld])

/-! ## C5 — food population maintenance -/

theorem eatFoodsAux_foods_length (world : World) (r : ℕ → ℚ) :
    ∀ i ps fs n, ((eatFoodsAux world r i ps fs n).2.1).length = fs.length := by
  intro i
  induction i with
  | zero => intro ps fs n; rfl
  | succ i ih =>
    intro ps fs n
    rw [eatFoodsAux]
    cases hf : fs[i]? with
    | none => dsimp only; exact ih ps fs n
    | some f =>
      dsimp only
      cases ha : awardFirstEater f 1 ps with
      | none => exact ih ps fs n
      | some ps' =>
        dsimp only
        rw [ih]
        have hilt : i < fs.length := by
          by_contra hcon
          rw [List.getElem?_eq_none (le_of_not_lt hcon)] at hf
          exact Option.noConfusion hf
        rw [List.length_append, List.length_eraseIdx, if_pos hilt]
        simp only [List.length_singleton]
        omega

theorem bodyPass_foods_length_ge (cosf sinf : ℚ → ℚ) (world : World) (r : ℕ → ℚ)
    (grid : SpatialGrid) :
    ∀ ps foods n, foods.length ≤ ((bodyPass cosf sinf world r grid ps foods n).2.1).length := by
  intro ps
  induction ps with
  | nil => intro foods n; simp [bodyPass]
  | cons p ps ih =>
    intro foods n
    rw [bodyPass]
    split
    · rcases hcb : createFoodBurstInRoom cosf sinf p world r n with ⟨bf, n'⟩
      simp
    · rcases hb : bodyPass cosf sinf world r grid ps foods n with ⟨ps', foods', dead', n'⟩
      have := ih foods n
      rw [hb] at this
      simpa using this

theorem h2hInner_foods_length_ge (cosf sinf : ℚ → ℚ) (world : World) (r : ℕ → ℚ)
    (a : PlayerState) :
    ∀ bs players foods dead n,
      foods.length ≤ ((h2hInner cosf sinf world r a bs (players, foods, dead, n)).2.1).length := by
  intro bs
  induction bs with
  | nil => intro players foods dead n; simp [h2hInner]
  | cons b bs ih =>
    intro players foods dead n
    rw [h2hInner]
    cases hd : decide (dist2 a.pos b.pos < HEAD_R2) with
    | true =>
      dsimp only
      rcases hfa : createFoodBurstInRoom cosf sinf a world r n with ⟨fa, n1⟩
      rcases hfb : createFoodBurstInRoom cosf sinf b world r n1 with ⟨fb, n2⟩
      dsimp only
      have hrec := ih (markDead b.id (markDead a.id players)) (foods ++ fa ++ fb)
        (dead ++ [a.id, b.id]) n2
      have hle : foods.length ≤ (foods ++ fa ++ fb).length := by
        simp
      omega
    | false =>
      dsimp only
      exact ih players foods dead n

theorem h2hOuter_foods_length_ge (cosf sinf : ℚ → ℚ) (world : World) (r : ℕ → ℚ) :
    ∀ l players foods dead n,
      foods.length ≤ ((h2hOuter cosf sinf world r l (players, foods, dead, n)).2.1).length := by
  intro l
  induction l with
  | nil => intro players foods dead n; simp [h2hOuter]
  | cons a rest ih =>
    intro players foods dead n
    rw [h2hOuter]
    rcases hin : h2hInner cosf sinf world r a rest (players, foods, dead, n)
      with ⟨p1, f1, d1, n1⟩
    have h1 : foods.length ≤ f1.length := by
      have := h2hInner_foods_length_ge cosf sinf world r a rest players foods dead n
      rw [hin] at this
      exact this
    have h2 := ih p1 f1 d1 n1
    omega

/-- A tick never removes plain food: consumption replaces one-for-one and
deaths only append burst food. -/
theorem stepRoom_foods_length_ge (cosf sinf : ℚ → ℚ) (r : ℕ → ℚ) (world : World)
    (st : GameState) :
    st.foods.length ≤ ((stepRoom cosf sinf r world st).1.foods).length := by
  rcases hef : eatFoods world r (st.activePlayers.map (movePlayer cosf sinf world)) st.foods 0
    with ⟨players2, foods2, n2⟩
  rcases heb : eatBonus world r players2 st.bonusFood n2 with ⟨players3, bonus3, n3⟩
  rcases hbp : bodyPass cosf sinf world r (buildGrid world players3) players3 foods2 n3
    with ⟨players4, foods4, dead4, n4⟩
  rcases hh : h2hPass cosf sinf world r players4 foods4 dead4 n4
    with ⟨players5, foods5, dead5, n5⟩
  have hstep : stepRoom cosf sinf r world st
      = ({ activePlayers := players5, foods := foods5, bonusFood := bonus3 }, dead5) := by
    unfold stepRoom
    dsimp only
    rw [hef]
    dsimp only
    rw [heb]
    dsimp only
    rw [hbp]
    dsimp only
    rw [hh]
  have h2 : foods2.length = st.foods.length := by
    have := eatFoodsAux_foods_length world r st.foods.length
      (st.activePlayers.map (movePlayer cosf sinf world)) st.foods 0
    rw [show eatFoodsAux world r st.foods.length
          (st.activePlayers.map (movePlayer cosf sinf world)) st.foods 0
          = eatFoods world r (st.activePlayers.map (movePlayer cosf sinf world)) st.foods 0
        from rfl, hef] at this
    exact this
  have h4 : foods2.length ≤ foods4.length := by
    have := bodyPass_foods_length_ge cosf sinf world r (buildGrid world players3)
      players3 foods2 n3
    rw [hbp] at this
    exact this
  have h5 : foods4.length ≤ foods5.length := by
    have := h2hOuter_foods_length_ge cosf sinf world r
      (players4.filter fun p => p.alive) players4 foods4 dead4 n4
    rw [show h2hOuter cosf sinf world r (players4.filter fun p => p.alive)
          (players4, foods4, dead4, n4) = h2hPass cosf sinf world r players4 foods4 dead4 n4
        from rfl, hh] at this
    exact this
  rw [hstep]
  dsimp only
  omega

/-- C5 (amended): `cleanupDistantFood` itself implements the documented
policy — above the cap of 400 (and with a living worm present) it keeps
exactly `400 - 50 = 350` foods, a sub-permutation of the originals in which
every removed food is at least as far (by `dist2` to the nearest living
worm) as every kept one, and at or below the cap it removes nothing — but
it acts on the legacy global state and `stepRoom` never invokes it: a tick
never shrinks the plain-food list (third conjunct). -/
theorem C5_cleanup_behavior :
    (∀ (players : List PlayerState) (foods : List Vec),
      MAX_FOOD < foods.length →
      ((players.filter fun p => p.alive).map fun p => p.pos).length ≠ 0 →
      (cleanupDistantFood players foods).length = MAX_FOOD - 50 ∧
      ∃ removed, (removed ++ cleanupDistantFood players foods).Perm foods ∧
        ∀ g ∈ cleanupDistantFood players foods, ∀ f ∈ removed,
          nearestPlayerDist ((players.filter fun p => p.alive).map fun p => p.pos) g
            ≤ nearestPlayerDist ((players.filter fun p => p.alive).map fun p => p.pos) f) ∧
    (∀ (players : List PlayerState) (foods : List Vec),
      foods.length ≤ MAX_FOOD → cleanupDistantFood players foods = foods) ∧
    (∀ (cosf sinf : ℚ → ℚ) (r : ℕ → ℚ) (world : World) (st : GameState),
      st.foods.length ≤ ((stepRoom cosf sinf r world st).1.foods).length) := by
  refine ⟨?_, ?_, fun cosf sinf r world st => stepRoom_foods_length_ge cosf sinf r world st⟩
  case refine_2 =>
    intro players foods hle
    unfold cleanupDistantFood
    rw [if_pos hle]
  · intro players foods hover hne
    have hnotle : ¬ foods.length ≤ MAX_FOOD := by omega
    set posns := (players.filter fun p => p.alive).map fun p => p.pos with hposns
    have hcleanup : cleanupDistantFood players foods
        = (foods.mergeSort fun a b =>
            nearestPlayerDist posns b ≤ nearestPlayerDist posns a).drop
          ((foods.mergeSort fun a b =>
            nearestPlayerDist posns b ≤ nearestPlayerDist posns a).length - (MAX_FOOD - 50)) := by
      unfold cleanupDistantFood
      rw [if_neg hnotle, if_neg hne]
    set sorted := foods.mergeSort fun a b =>
      nearestPlayerDist posns b ≤ nearestPlayerDist posns a with hsorted
    have hslen : sorted.length = foods.length := List.length_mergeSort foods
    have hperm : sorted.Perm foods := List.mergeSort_perm foods _
    constructor
    · rw [hcleanup, List.length_drop]
      omega
    · refine ⟨sorted.take (sorted.length - (MAX_FOOD - 50)), ?_, ?_⟩
      · rw [hcleanup]
        rw [List.take_append_drop]
        exact hperm
      · have hpw : sorted.Pairwise (fun a b =>
            (decide (nearestPlayerDist posns b ≤ nearestPlayerDist posns a)) = true) := by
          apply List.sorted_mergeSort
          · intro x y z hxy hyz
            simp only [decide_eq_true_eq] at hxy hyz ⊢
            exact le_trans hyz hxy
          · intro x y
            simp only [Bool.or_eq_true, decide_eq_true_eq]
            exact le_total (nearestPlayerDist posns y) (nearestPlayerDist posns x)
        intro g hg f hf
        rw [hcleanup] at hg
        have hsplit : sorted = sorted.take (sorted.length - (MAX_FOOD - 50))
            ++ sorted.drop (sorted.length - (MAX_FOOD - 50)) :=
          (List.take_append_drop _ _).symm
        rw [hsplit] at hpw
        have := (List.pairwise_append.mp hpw).2.2 f hf g hg
        simpa using this

/-- A room with 401 plain foods (over the 400 cap) and one living worm far
from all of them. -/
def C5state : GameState :=
  { activePlayers := [mkPlayer "w" 1000 1000 []],
    foods := (List.range 401).map fun i : ℕ => { x := (i : ℚ), y := 0 }, bonusFood := [] }

theorem C5state_foods_length : C5state.foods.length = 401 := by
  show ((List.range 401).map fun i : ℕ => ({ x := (i : ℚ), y := 0 } : Vec)).length = 401
  rw [List.length_map, List.length_range]

/-- C5 (counterexample): `C5state` has 401 > 400 plain foods, and
`cleanupDistantFood` would indeed cut them to 350 — but a tick of the room
leaves the count at ≥ 401, not 350: the per-tick simulation step does not
run the cleanup (its call site in `stepRoom` is a skipped-for-now comment),
so "step 7" does not exist in the per-room loop. -/
theorem C5_cex :
    MAX_FOOD < C5state.foods.length ∧
    (cleanupDistantFood C5state.activePlayers C5state.foods).length = 350 ∧
    (stepRoom oneF zeroF halfR chillWorld C5state).1.foods.length ≠ 350 := by
  have hlen : C5state.foods.length = 401 := C5state_foods_length
  refine ⟨by rw [hlen]; norm_num [MAX_FOOD], ?_, ?_⟩
  · have hnotle : ¬ C5state.foods.length ≤ MAX_FOOD := by
      rw [hlen]; norm_num [MAX_FOOD]
    have hne : ((C5state.activePlayers.filter fun p => p.alive).map fun p => p.pos).length
        ≠ 0 := by
      simp [C5state, mkPlayer]
    unfold cleanupDistantFood
    rw [if_neg hnotle, if_neg hne, List.length_drop, List.length_mergeSort, hlen]
    norm_num [MAX_FOOD]
  · have := stepRoom_foods_length_ge oneF zeroF halfR chillWorld C5state
    rw [hlen] at this
    omega

/-- C5 (witness): the amended theorem's cleanup clauses at the concrete
over-cap room, and its step clause at the same room. -/
theorem C5_witness :
    ((cleanupDistantFood C5state.activePlayers C5state.foods).length = MAX_FOOD - 50 ∧
      ∃ removed, (removed ++ cleanupDistantFood C5state.activePlayers C5state.foods).Perm
          C5state.foods ∧
        ∀ g ∈ cleanupDistantFood C5state.activePlayers C5state.foods, ∀ f ∈ removed,
          nearestPlayerDist
              ((C5state.activePlayers.filter fun p => p.alive).map fun p => p.pos) g
            ≤ nearestPlayerDist
              ((C5state.activePlayers.filter fun p => p.alive).map fun p => p.pos) f) ∧
    cleanupDistantFood C5state.activePlayers [] = [] ∧
    C5state.foods.length ≤ (stepRoom oneF zeroF halfR chillWorld C5state).1.foods.length :=
  ⟨C5_cleanup_behavior.1 C5state.activePlayers C5state.foods
      (by rw [C5state_foods_length]; norm_num [MAX_FOOD]) (by simp [C5state, mkPlayer]),
   C5_cleanup_behavior.2.1 C5state.activePlayers [] (by simp [MAX_FOOD]),
   C5_cleanup_behavior.2.2 oneF zeroF halfR chillWorld C5state⟩

end RdcWorm
